import Mathlib

/-!
# Verification of the smallprofiler core (src/profiler.h)

This file is a shallow embedding, in Lean 4, of the single-header C profiler
in `src/profiler.h`, together with theorems settling the claims of the
specification against that embedding.

Modelling conventions:

* `uint64_t` values are `Nat` with explicit `% 2^64` where C arithmetic wraps.
* The global mutable state (`profiler_current_parent`, `profiler_cycles_measure`,
  `profiler_nodes`) is an explicit `ProfilerState` record that every operation
  threads.  The node array is a total function `Nat → ProfilerNode`; the C
  array only owns indices `< PROFILER_NODES_MAX`, and accesses outside that
  range model the out-of-bounds accesses of the C code.
* The `PROFILER_START` / `PROFILER_STOP` macros become the state-transition
  functions `profilerStartStep` / `profilerStopStep`.  The per-call-site local
  variable holding the start timestamp becomes an explicit stack threaded by
  the trace semantics `runEvents`, which is exact for properly nested traces.
* C `float` arithmetic in the seconds conversion is modelled exactly: a value
  of type `FVal` is an exact rational, or positive infinity, or NaN, with
  IEEE-754 division-by-zero behaviour.  For every concrete value appearing in
  the claims the exact computation coincides with the single-precision one.
-/

set_option autoImplicit false
set_option maxRecDepth 40000
set_option linter.constructorNameAsVariable false

namespace SmallProfiler

/-- `#define PROFILER_NODES_MAX 256` (src/profiler.h line 35). -/
def PROFILER_NODES_MAX : Nat := 256

/-- `#define PROFILER_NAME_MAXLEN 256` (src/profiler.h line 36): the size in
bytes of the `name` buffer of a `profiler_node`. -/
def PROFILER_NAME_MAXLEN : Nat := 256

/-- `#define PROFILER_MEASURE_MILLISECONDS 100` (src/profiler.h line 38). -/
def PROFILER_MEASURE_MILLISECONDS : Nat := 100

/-- `#define PROFILER_MEASURE_SECONDS ((float)PROFILER_MEASURE_MILLISECONDS / 1000.0f)`
(src/profiler.h line 39), as an exact rational: `100 / 1000 = 1/10`, which is
the value the claims rely on (the `float` constant `0.1f` differs from `1/10`
by less than `2^-27`; for every concrete computation appearing in the claims
the single-precision result and the exact result agree, see `secondsValue`). -/
def PROFILER_MEASURE_SECONDS : ℚ := 100 / 1000

/-- `UINT64_MAX`, the initial value of `max_cycles_ceil` in
`profiler_get_results_sorted` (src/profiler.h line 151). -/
def UINT64_MAX : Nat := 2 ^ 64 - 1

/-- Modulus of `uint64_t` arithmetic. -/
def U64MOD : Nat := 2 ^ 64

/-- Wrapping `uint64_t` subtraction `a - b`. -/
def u64sub (a b : Nat) : Nat := (a % U64MOD + (U64MOD - b % U64MOD)) % U64MOD

/-- Wrapping `uint64_t` addition `a + b`, as in `total_cycles += ...`. -/
def u64add (a b : Nat) : Nat := (a + b) % U64MOD

/-- `struct profiler_node` (src/profiler.h lines 96-101).  The `name` field is
the C string stored in the 256-byte `name` buffer. -/
structure ProfilerNode where
  name : String
  parent_id : Int
  total_cycles : Nat
deriving DecidableEq

/-- The three global variables of the profiler (src/profiler.h lines 104-106):
`profiler_current_parent`, `profiler_cycles_measure`, and the
`profiler_nodes` array, modelled as a total function on indices. -/
structure ProfilerState where
  profiler_current_parent : Int
  profiler_cycles_measure : Nat
  profiler_nodes : Nat → ProfilerNode

/-- A `profiler_node` as C static initialisation leaves it: all bytes zero,
so the stored C string is empty and `parent_id` is `0`. -/
def zeroNode : ProfilerNode := ⟨"", 0, 0⟩

/-- A `profiler_node` as `_profiler_reset` leaves it (src/profiler.h
lines 131-136): zero cycles, parent `-1`, empty name. -/
def resetNode : ProfilerNode := ⟨"", -1, 0⟩

/-- The global state at program start (src/profiler.h lines 104-106):
`profiler_current_parent = -1`, `profiler_cycles_measure = 0`, and the node
array zero-initialised. -/
def zeroState : ProfilerState := ⟨-1, 0, fun _ => zeroNode⟩

/-- Result of a bounded byte copy: the C string left in the destination and
the number of bytes the call writes. -/
structure CopyResult where
  stored : String
  bytesWritten : Nat
deriving DecidableEq

/-- `_profiler_strncpy(dst, src, size)` = `strncpy(dst, src, size)`
(src/profiler.h lines 209-212): copies at most `size` characters of `src` and
zero-pads up to `size`, so it always writes exactly `size` bytes into `dst`. -/
def profiler_strncpy (src : String) (size : Nat) : CopyResult :=
  ⟨⟨src.data.take size⟩, size⟩

/-- The name store performed by `PROFILER_START(NAME)` (src/profiler.h
line 231): `_profiler_strncpy(profiler_nodes[id].name, #NAME, strlen(#NAME)+1)`.
The size argument is the full length of the name plus one, not
`PROFILER_NAME_MAXLEN`. -/
def startNameWrite (name : String) : CopyResult :=
  profiler_strncpy name (name.length + 1)

/-- `PROFILER_START(NAME)` state update (src/profiler.h lines 229-234), for
the call site whose `__COUNTER__`-assigned id is `id`: store the name, set
`parent_id` to `profiler_current_parent`, then set `profiler_current_parent`
to the id.  The capture of `get_cycles()` into the local variable is handled
by the trace semantics `runEvents`. -/
def profilerStartStep (s : ProfilerState) (id : Nat) (name : String) : ProfilerState :=
  { s with
    profiler_nodes := fun k =>
      if k = id then
        { s.profiler_nodes id with
          name := (startNameWrite name).stored
          parent_id := s.profiler_current_parent }
      else s.profiler_nodes k
    profiler_current_parent := (id : Int) }

/-- `PROFILER_STOP(NAME)` state update (src/profiler.h lines 236-238):
`total_cycles += get_cycles() - __profiler_start_NAME` in `uint64_t`
arithmetic, then restore `profiler_current_parent` from the node's
`parent_id`.  `t0` is the cycle count captured by the matching
`PROFILER_START`, `t` the current cycle count. -/
def profilerStopStep (s : ProfilerState) (id : Nat) (t0 t : Nat) : ProfilerState :=
  { s with
    profiler_nodes := fun k =>
      if k = id then
        { s.profiler_nodes id with
          total_cycles := u64add ((s.profiler_nodes id).total_cycles) (u64sub t t0) }
      else s.profiler_nodes k
    profiler_current_parent := (s.profiler_nodes id).parent_id }

/-- `_profiler_reset` (src/profiler.h lines 128-137): clears every slot with
index below `PROFILER_NODES_MAX` to `resetNode`; touches nothing else. -/
def profilerResetStep (s : ProfilerState) : ProfilerState :=
  { s with
    profiler_nodes := fun k =>
      if k < PROFILER_NODES_MAX then resetNode else s.profiler_nodes k }

/-- `_profiler_initialize` (src/profiler.h lines 115-126), the function the
public `profiler_initialize()` macro expands to: reset, then busy-wait for
the measurement window and record the elapsed cycle delta
`get_cycles() - cycles_start` in `profiler_cycles_measure`.  The two cycle
counter readings around the window are the parameters `t0` and `t1`. -/
def profilerCalibrate (s : ProfilerState) (t0 t1 : Nat) : ProfilerState :=
  { profilerResetStep s with profiler_cycles_measure := u64sub t1 t0 }

/-- The instrumentation events of a run: each event carries the call site's
`__COUNTER__`-assigned id, and the value `get_cycles()` returns at that
point; a start event also carries the stringised `NAME` token. -/
inductive PEvent where
  | start (id : Nat) (name : String) (t : Nat)
  | stop (id : Nat) (t : Nat)
deriving DecidableEq

/-- One instrumentation event applied to the profiler state paired with the
stack of pending `(id, start-cycles)` captures.  The stack models the
per-activation local variables `__profiler_start_NAME`, which under properly
nested Start/Stop calls hold exactly the matching start's reading. -/
def stepEvent : ProfilerState × List (Nat × Nat) → PEvent → ProfilerState × List (Nat × Nat)
  | (s, stk), .start id name t => (profilerStartStep s id name, (id, t) :: stk)
  | (s, stk), .stop id t =>
    match stk with
    | [] => (s, [])
    | (_, t0) :: rest => (profilerStopStep s id t0 t, rest)

/-- Run a list of instrumentation events. -/
def runEvents (es : List PEvent) (st : ProfilerState × List (Nat × Nat)) :
    ProfilerState × List (Nat × Nat) :=
  es.foldl stepEvent st

/-- Proper nesting check: every stop matches the innermost open start's call
site and the trace closes every start. -/
def nestOK : List PEvent → List Nat → Bool
  | [], stk => stk.isEmpty
  | .start id _ _ :: es, stk => nestOK es (id :: stk)
  | .stop id _ :: es, stk =>
    match stk with
    | [] => false
    | top :: rest => top == id && nestOK es rest

/-- A trace is properly nested when every Stop closes the innermost open
Start of the same call site, and no Start stays open. -/
def wellNested (es : List PEvent) : Bool := nestOK es []

/-- The matched `(region id, start-cycles, stop-cycles)` pairs of a trace,
paired off LIFO exactly as the local-variable captures of the macros. -/
def pairsAux : List PEvent → List (Nat × Nat) → List (Nat × Nat × Nat)
  | [], _ => []
  | .start id _ t :: es, stk => pairsAux es ((id, t) :: stk)
  | .stop id t :: es, stk =>
    match stk with
    | [] => pairsAux es []
    | (_, t0) :: rest => (id, t0, t) :: pairsAux es rest

/-- The matched Start/Stop pairs of a complete trace. -/
def tracePairs (es : List PEvent) : List (Nat × Nat × Nat) := pairsAux es []

/-- The `uint64_t` cycle delta `stop - start` of one matched pair. -/
def pairDelta (p : Nat × Nat × Nat) : Nat := u64sub p.2.2 p.2.1

/-- Sum of the stop-minus-start cycle deltas over every matched Start/Stop
pair of region `r` in the trace. -/
def regionPairsSum (es : List PEvent) (r : Nat) : Nat :=
  (((tracePairs es).filter (fun p => p.1 == r)).map pairDelta).sum

/-- The update one iteration of the inner scan loop of
`profiler_get_results_sorted` applies to `(max_cycles, max_index)`
(src/profiler.h lines 162-170): index `j` takes over when
`profiler_nodes[j].parent_id == parent_id`,
`profiler_nodes[j].total_cycles > max_cycles` and
`total_cycles < max_cycles_ceil`. -/
def scanStep (nodes : Nat → ProfilerNode) (parent : Int) (ceil : Nat) (j : Nat)
    (acc : Nat × Int) : Nat × Int :=
  if (nodes j).parent_id = parent ∧ (nodes j).total_cycles > acc.1 ∧
      (nodes j).total_cycles < ceil
  then ((nodes j).total_cycles, (j : Int))
  else acc

/-- Inner scan loop of `profiler_get_results_sorted` (src/profiler.h
lines 159-171): `n` iterations starting at index `j`, threading
`(max_cycles, max_index)`. -/
def scanFrom (nodes : Nat → ProfilerNode) (parent : Int) (ceil : Nat) :
    Nat → Nat → Nat × Int → Nat × Int
  | _, 0, acc => acc
  | j, n + 1, acc => scanFrom nodes parent ceil (j + 1) n (scanStep nodes parent ceil j acc)

/-- The full inner scan of `profiler_get_results_sorted`: `j` runs over
`0 .. PROFILER_NODES_MAX - 1` with `max_cycles = 0`, `max_index = -1`. -/
def scanChildren (nodes : Nat → ProfilerNode) (parent : Int) (ceil : Nat) : Nat × Int :=
  scanFrom nodes parent ceil 0 PROFILER_NODES_MAX (0, -1)

/-- The sequence of `(max_index, max_cycles)` selections the outer loop of
`profiler_get_results_sorted` makes at one nesting level (src/profiler.h
lines 153-193), with `i` remaining iterations and current `max_cycles_ceil`:
each found maximum becomes the ceiling of the next iteration; the loop stops
when no node qualifies. -/
def selGo (nodes : Nat → ProfilerNode) (parent : Int) : Nat → Nat → List (Nat × Nat)
  | 0, _ => []
  | i + 1, ceil =>
    if 0 ≤ (scanChildren nodes parent ceil).2 then
      ((scanChildren nodes parent ceil).2.toNat, (scanChildren nodes parent ceil).1)
        :: selGo nodes parent i (scanChildren nodes parent ceil).1
    else []

/-- One level of `profiler_get_results_sorted` (src/profiler.h lines 147-194)
with the recursive call into children abstracted as `child`: emits the
`(node index, level)` of each selection, immediately followed by that node's
subtree, then the next selection under the lowered ceiling. -/
def renderGo (child : Nat → Nat → List (Nat × Nat)) (nodes : Nat → ProfilerNode)
    (parent : Int) (level : Nat) : Nat → Nat → List (Nat × Nat)
  | 0, _ => []
  | i + 1, ceil =>
    if 0 ≤ (scanChildren nodes parent ceil).2 then
      ((scanChildren nodes parent ceil).2.toNat, level) ::
        (child (scanChildren nodes parent ceil).2.toNat (level + 1) ++
          renderGo child nodes parent level i (scanChildren nodes parent ceil).1)
    else []

/-- `profiler_get_results_sorted` as a row producer: the list of
`(node index, indent level)` rows it emits, in emission order.  `fuel` bounds
the recursion depth into children; the C function recurses without bound and
diverges on a cyclic parent chain, so any `fuel` above the forest depth
(at most `PROFILER_NODES_MAX` for an acyclic chain of distinct indices)
reproduces it exactly. -/
def renderTree : Nat → (Nat → ProfilerNode) → Int → Nat → List (Nat × Nat)
  | 0, _, _, _ => []
  | fuel + 1, nodes, parent, level =>
    renderGo (fun idx lvl => renderTree fuel nodes (idx : Int) lvl) nodes parent level
      PROFILER_NODES_MAX UINT64_MAX

/-- The rows of `profiler_get_results_sorted(buffer, parent_id, level)`
(src/profiler.h lines 147-194). -/
def profiler_get_results_sorted (nodes : Nat → ProfilerNode) (parent : Int)
    (level : Nat) : List (Nat × Nat) :=
  renderTree (PROFILER_NODES_MAX + 1) nodes parent level

/-- A C `float`/`double` value as it matters to this code: an exact rational,
positive infinity, or NaN.  Every quantity the profiler feeds to `float`
arithmetic here is a nonnegative exact value, so signs of zero and negative
infinity never arise. -/
inductive FVal where
  | finite (q : ℚ)
  | inf
  | nan
deriving DecidableEq

/-- IEEE-754 division on `FVal` for the nonnegative operands occurring here:
a finite value divided by zero is `+inf` (or NaN for `0/0`); otherwise exact.
Non-finite operands do not occur in this code and map to NaN. -/
def FVal.div : FVal → FVal → FVal
  | .finite a, .finite b =>
    if b = 0 then (if a = 0 then .nan else .inf) else .finite (a / b)
  | _, _ => .nan

/-- The seconds conversion of a row (src/profiler.h line 185):
`(float)total_cycles / ((float)profiler_cycles_measure / PROFILER_MEASURE_SECONDS)`. -/
def secondsValue (measure cycles : Nat) : FVal :=
  FVal.div (.finite (cycles : ℚ))
    (FVal.div (.finite (measure : ℚ)) (.finite PROFILER_MEASURE_SECONDS))

/-- The cycles-per-second conversion factor the seconds division uses:
`(float)profiler_cycles_measure / PROFILER_MEASURE_SECONDS`. -/
def calibrationFactor (measure : Nat) : ℚ := (measure : ℚ) / PROFILER_MEASURE_SECONDS

/-- Decimal digit character. -/
def decDigit (n : Nat) : Char := Char.ofNat (48 + n % 10)

/-- Decimal digits of `n`, fuel-driven so that it reduces definitionally;
32 digits cover every `uint64_t` value. -/
def natDecAux : Nat → Nat → String
  | 0, _ => ""
  | fuel + 1, n =>
    if n < 10 then ⟨[decDigit n]⟩ else natDecAux fuel (n / 10) ++ ⟨[decDigit n]⟩

/-- Decimal rendering of an unsigned integer, as `printf` `%` `PRIu64` does. -/
def natDecRepr (n : Nat) : String := natDecAux 32 n

/-- Left-pad a decimal rendering with zeros to `w` digits. -/
def zeroPad (w n : Nat) : String :=
  ⟨List.replicate (w - (natDecRepr n).length) (decDigit 0)⟩ ++ natDecRepr n

/-- `printf("%f", x)` for a nonnegative finite value: fixed-point with six
fractional digits, rounding to nearest. -/
def formatFixed6 (q : ℚ) : String :=
  natDecRepr ((Int.floor (q * 1000000 + 1 / 2)).toNat / 1000000) ++ "." ++
    zeroPad 6 ((Int.floor (q * 1000000 + 1 / 2)).toNat % 1000000)

/-- `printf("%f", x)` on an `FVal`; glibc prints `inf` and `nan` for the
non-finite values. -/
def FVal.formatF : FVal → String
  | .finite q => formatFixed6 q
  | .inf => "inf"
  | .nan => "nan"

/-- `printf` `%-40s`-style left justification: pad with spaces to `w`
columns, never truncating. -/
def padRight (s : String) (w : Nat) : String :=
  s ++ ⟨List.replicate (w - s.length) ' '⟩

/-- The `buffer_name` built at src/profiler.h lines 177-183: four spaces per
nesting level, then the node's name. -/
def indentName (level : Nat) (name : String) : String :=
  ⟨List.replicate (4 * level) ' '⟩ ++ name

/-- One data row of the report (src/profiler.h line 186):
`sprintf(..., "%-40s%f : %" PRIu64 "\n", buffer_name, seconds, total_cycles)`. -/
def rowText (st : ProfilerState) (p : Nat × Nat) : String :=
  padRight (indentName p.2 ((st.profiler_nodes p.1).name)) 40 ++
    (secondsValue st.profiler_cycles_measure
      ((st.profiler_nodes p.1).total_cycles)).formatF ++
    " : " ++ natDecRepr ((st.profiler_nodes p.1).total_cycles) ++ "\n"

/-- First header line of the report (src/profiler.h line 198):
`sprintf(buffer, "%-40s%s  : %s\n", "Name", "Seconds", "CPU Cycles")`. -/
def headerLine1 : String := padRight "Name" 40 ++ "Seconds" ++ "  : " ++ "CPU Cycles" ++ "\n"

/-- Second header line of the report (src/profiler.h line 199): 61 dashes. -/
def headerLine2 : String := ⟨List.replicate 61 '-'⟩ ++ "\n"

/-- `_profiler_get_results` (src/profiler.h lines 196-201): the two header
lines followed by the rows of `profiler_get_results_sorted(buffer, -1, 0)`. -/
def profiler_get_results (st : ProfilerState) : String :=
  headerLine1 ++ headerLine2 ++
    String.join ((profiler_get_results_sorted st.profiler_nodes (-1) 0).map (rowText st))

/-! ### Properties of the inner scan loop -/

theorem scanFrom_add (nodes : Nat → ProfilerNode) (parent : Int) (ceil : Nat)
    (m n j : Nat) (acc : Nat × Int) :
    scanFrom nodes parent ceil j (m + n) acc
      = scanFrom nodes parent ceil (j + m) n (scanFrom nodes parent ceil j m acc) := by
  induction m generalizing j acc with
  | zero => simp [scanFrom]
  | succ m ih =>
    have h1 : m + 1 + n = (m + n) + 1 := by omega
    rw [h1]
    show scanFrom nodes parent ceil (j + 1) (m + n) (scanStep nodes parent ceil j acc) = _
    rw [ih]
    have h2 : j + 1 + m = j + (m + 1) := by omega
    rw [h2]
    rfl

theorem scanStep_fst_le (nodes : Nat → ProfilerNode) (parent : Int) (ceil j : Nat)
    (acc : Nat × Int) : acc.1 ≤ (scanStep nodes parent ceil j acc).1 := by
  unfold scanStep
  split
  · next h => exact Nat.le_of_lt h.2.1
  · exact Nat.le_refl _

theorem scanFrom_fst_le (nodes : Nat → ProfilerNode) (parent : Int) (ceil : Nat)
    (j n : Nat) (acc : Nat × Int) :
    acc.1 ≤ (scanFrom nodes parent ceil j n acc).1 := by
  induction n generalizing j acc with
  | zero => exact Nat.le_refl _
  | succ n ih =>
    exact Nat.le_trans (scanStep_fst_le nodes parent ceil j acc) (ih (j + 1) _)

theorem scanFrom_skip (nodes : Nat → ProfilerNode) (parent : Int) (ceil : Nat)
    (j n : Nat) (acc : Nat × Int)
    (h : ∀ k, j ≤ k → k < j + n →
      ¬((nodes k).parent_id = parent ∧ 0 < (nodes k).total_cycles ∧
        (nodes k).total_cycles < ceil)) :
    scanFrom nodes parent ceil j n acc = acc := by
  induction n generalizing j acc with
  | zero => rfl
  | succ n ih =>
    have hstep : scanStep nodes parent ceil j acc = acc := by
      unfold scanStep
      split
      · next hg =>
        exact absurd ⟨hg.1, Nat.lt_of_le_of_lt (Nat.zero_le _) hg.2.1, hg.2.2⟩
          (h j (Nat.le_refl j) (by omega))
      · rfl
    show scanFrom nodes parent ceil (j + 1) n (scanStep nodes parent ceil j acc) = acc
    rw [hstep]
    exact ih (j + 1) acc (fun k hk1 hk2 => h k (by omega) (by omega))
theorem scanFrom_cases (nodes : Nat → ProfilerNode) (parent : Int) (ceil : Nat)
    (j n : Nat) (acc : Nat × Int) :
    scanFrom nodes parent ceil j n acc = acc ∨
      ∃ k, j ≤ k ∧ k < j + n ∧
        scanFrom nodes parent ceil j n acc = ((nodes k).total_cycles, (k : Int)) ∧
        (nodes k).parent_id = parent ∧ acc.1 < (nodes k).total_cycles ∧
        (nodes k).total_cycles < ceil := by
  induction n generalizing j acc with
  | zero => exact Or.inl rfl
  | succ n ih =>
    have hch : scanFrom nodes parent ceil j (n + 1) acc
        = scanFrom nodes parent ceil (j + 1) n (scanStep nodes parent ceil j acc) := rfl
    have hstep : scanStep nodes parent ceil j acc = acc ∨
        (scanStep nodes parent ceil j acc = ((nodes j).total_cycles, (j : Int)) ∧
          (nodes j).parent_id = parent ∧ acc.1 < (nodes j).total_cycles ∧
          (nodes j).total_cycles < ceil) := by
      unfold scanStep
      split
      · next hg => exact Or.inr ⟨rfl, hg.1, hg.2.1, hg.2.2⟩
      · exact Or.inl rfl
    rcases ih (j + 1) (scanStep nodes parent ceil j acc) with heq | ⟨k, hk1, hk2, hk3, hk4, hk5, hk6⟩
    · rcases hstep with h1 | ⟨h1, h2, h3, h4⟩
      · exact Or.inl (by rw [hch, heq, h1])
      · refine Or.inr ⟨j, Nat.le_refl j, by omega, ?_, h2, h3, h4⟩
        rw [hch, heq, h1]
    · refine Or.inr ⟨k, by omega, by omega, ?_, hk4, ?_, hk6⟩
      · rw [hch, hk3]
      · exact Nat.lt_of_le_of_lt (scanStep_fst_le nodes parent ceil j acc) hk5

theorem scanFrom_ub (nodes : Nat → ProfilerNode) (parent : Int) (ceil : Nat)
    (j n : Nat) (acc : Nat × Int) :
    ∀ k, j ≤ k → k < j + n → (nodes k).parent_id = parent →
      (nodes k).total_cycles < ceil →
      (nodes k).total_cycles ≤ (scanFrom nodes parent ceil j n acc).1 := by
  induction n generalizing j acc with
  | zero => intro k h1 h2 _ _; omega
  | succ n ih =>
    intro k hk1 hk2 hp hc
    have hch : scanFrom nodes parent ceil j (n + 1) acc
        = scanFrom nodes parent ceil (j + 1) n (scanStep nodes parent ceil j acc) := rfl
    rw [hch]
    rcases Nat.eq_or_lt_of_le hk1 with hkj | hkj
    · have hstep : (nodes k).total_cycles ≤ (scanStep nodes parent ceil j acc).1 := by
        subst hkj
        unfold scanStep
        split
        · exact Nat.le_refl _
        · next hg =>
          rcases Nat.lt_or_ge acc.1 (nodes j).total_cycles with hlt | hge
          · exact absurd ⟨hp, hlt, hc⟩ hg
          · exact hge
      exact Nat.le_trans hstep (scanFrom_fst_le nodes parent ceil (j + 1) n _)
    · exact ih (j + 1) _ k hkj (by omega) hp hc

theorem scanFrom_stable (nodes : Nat → ProfilerNode) (parent : Int) (ceil : Nat)
    (j n : Nat) (acc : Nat × Int)
    (h : (scanFrom nodes parent ceil j n acc).1 = acc.1) :
    scanFrom nodes parent ceil j n acc = acc := by
  induction n generalizing j acc with
  | zero => rfl
  | succ n ih =>
    have hch : scanFrom nodes parent ceil j (n + 1) acc
        = scanFrom nodes parent ceil (j + 1) n (scanStep nodes parent ceil j acc) := rfl
    have hmono2 : (scanStep nodes parent ceil j acc).1
        ≤ (scanFrom nodes parent ceil (j + 1) n (scanStep nodes parent ceil j acc)).1 :=
      scanFrom_fst_le nodes parent ceil (j + 1) n _
    rw [hch] at h ⊢
    have hstep : scanStep nodes parent ceil j acc = acc := by
      have hmono1 := scanStep_fst_le nodes parent ceil j acc
      have hfix : (scanStep nodes parent ceil j acc).1 = acc.1 := by omega
      unfold scanStep at hfix ⊢
      split at hfix
      · next hg =>
        exfalso
        obtain ⟨-, hgt, -⟩ := hg
        simp at hfix
        omega
      · next hng => rw [if_neg hng]
    rw [hstep] at h ⊢
    exact ih (j + 1) acc h

/-- One scan iteration. -/
theorem scanFrom_one (nodes : Nat → ProfilerNode) (parent : Int) (ceil : Nat)
    (j : Nat) (acc : Nat × Int) :
    scanFrom nodes parent ceil j 1 acc = scanStep nodes parent ceil j acc := rfl

/-- Split a scan starting at 0 at an intermediate index `k`. -/
theorem scanFrom_split (nodes : Nat → ProfilerNode) (parent : Int) (ceil : Nat)
    (n k : Nat) (hk : k < n) (acc : Nat × Int) :
    scanFrom nodes parent ceil 0 n acc
      = scanFrom nodes parent ceil (k + 1) (n - (k + 1))
          (scanStep nodes parent ceil k (scanFrom nodes parent ceil 0 k acc)) := by
  conv_lhs => rw [show n = k + (1 + (n - (k + 1))) from by omega]
  rw [scanFrom_add, scanFrom_add, scanFrom_one]
  simp only [Nat.zero_add]

theorem scanChildren_def (nodes : Nat → ProfilerNode) (parent : Int) (ceil : Nat) :
    scanChildren nodes parent ceil
      = scanFrom nodes parent ceil 0 PROFILER_NODES_MAX (0, -1) := rfl

/-- The scan either finds nothing, staying at `(0, -1)`, or it selects a
child with positive cycle count below the ceiling. -/
theorem scanChildren_cases (nodes : Nat → ProfilerNode) (parent : Int) (ceil : Nat) :
    scanChildren nodes parent ceil = (0, -1) ∨
      ∃ k, k < PROFILER_NODES_MAX ∧
        scanChildren nodes parent ceil = ((nodes k).total_cycles, (k : Int)) ∧
        (nodes k).parent_id = parent ∧ 0 < (nodes k).total_cycles ∧
        (nodes k).total_cycles < ceil := by
  rcases scanFrom_cases nodes parent ceil 0 PROFILER_NODES_MAX (0, -1) with heq | ⟨k, _, hk2, hk3, hk4, hk5, hk6⟩
  · exact Or.inl heq
  · exact Or.inr ⟨k, by omega, hk3, hk4, hk5, hk6⟩

theorem scanChildren_notfound (nodes : Nat → ProfilerNode) (parent : Int) (ceil : Nat)
    (h : ¬0 ≤ (scanChildren nodes parent ceil).2) :
    scanChildren nodes parent ceil = (0, -1) := by
  rcases scanChildren_cases nodes parent ceil with heq | ⟨k, _, hk3, _⟩
  · exact heq
  · rw [hk3] at h
    exact absurd (Int.natCast_nonneg k) h

theorem scanChildren_found (nodes : Nat → ProfilerNode) (parent : Int) (ceil : Nat)
    (h : 0 ≤ (scanChildren nodes parent ceil).2) :
    ∃ k, k < PROFILER_NODES_MAX ∧
      scanChildren nodes parent ceil = ((nodes k).total_cycles, (k : Int)) ∧
      (nodes k).parent_id = parent ∧ 0 < (nodes k).total_cycles ∧
      (nodes k).total_cycles < ceil := by
  rcases scanChildren_cases nodes parent ceil with heq | hex
  · rw [heq] at h
    exact absurd h (by decide)
  · exact hex

theorem scanChildren_ub (nodes : Nat → ProfilerNode) (parent : Int) (ceil : Nat)
    (k : Nat) (hk : k < PROFILER_NODES_MAX) (hp : (nodes k).parent_id = parent)
    (hc : (nodes k).total_cycles < ceil) :
    (nodes k).total_cycles ≤ (scanChildren nodes parent ceil).1 :=
  scanFrom_ub nodes parent ceil 0 PROFILER_NODES_MAX (0, -1) k (Nat.zero_le k)
    (by omega) hp hc

theorem scanChildren_found_of_child (nodes : Nat → ProfilerNode) (parent : Int)
    (ceil : Nat) (k : Nat) (hk : k < PROFILER_NODES_MAX)
    (hp : (nodes k).parent_id = parent) (h0 : 0 < (nodes k).total_cycles)
    (hc : (nodes k).total_cycles < ceil) :
    0 ≤ (scanChildren nodes parent ceil).2 := by
  by_contra h
  have hnf := scanChildren_notfound nodes parent ceil h
  have hub := scanChildren_ub nodes parent ceil k hk hp hc
  rw [hnf] at hub
  omega

/-- Among equal-cycle children, the scan keeps the first-registered index:
if the scan selects index `i`, no index below `i` is a child with the same
cycle count. -/
theorem scanChildren_first (nodes : Nat → ProfilerNode) (parent : Int) (ceil : Nat)
    (i : Nat)
    (hi : scanChildren nodes parent ceil = ((nodes i).total_cycles, (i : Int)))
    (hipos : 0 < (nodes i).total_cycles) :
    ∀ k, k < i → ¬((nodes k).parent_id = parent ∧
      (nodes k).total_cycles = (nodes i).total_cycles) := by
  intro k hki hk
  have hfacts : i < PROFILER_NODES_MAX ∧ (nodes i).total_cycles < ceil := by
    rcases scanChildren_cases nodes parent ceil with heq | ⟨m, hm1, hm3, _, _, hm6⟩
    · rw [heq] at hi
      simp only [Prod.mk.injEq] at hi
      omega
    · rw [hm3] at hi
      simp only [Prod.mk.injEq] at hi
      have hmi : m = i := by exact_mod_cast hi.2
      subst hmi
      exact ⟨hm1, hi.1 ▸ hm6⟩
  obtain ⟨hiN, hcceil⟩ := hfacts
  have hk256 : k < PROFILER_NODES_MAX := Nat.lt_trans hki hiN
  have hsplit := scanFrom_split nodes parent ceil PROFILER_NODES_MAX k hk256 (0, -1)
  rw [← scanChildren_def nodes parent ceil] at hsplit
  set a1 := scanFrom nodes parent ceil 0 k (0, -1) with ha1
  rcases Nat.lt_or_ge a1.1 ((nodes k).total_cycles) with hlt | hge
  · -- index k takes over; the final maximum then equals its cycles, so the
    -- remainder of the scan is stable and the selected index is k, not i
    have hstepk : scanStep nodes parent ceil k a1 = ((nodes k).total_cycles, (k : Int)) := by
      unfold scanStep
      split
      · rfl
      · next hg => exact absurd ⟨hk.1, hlt, by rw [hk.2]; exact hcceil⟩ hg
    rw [hstepk] at hsplit
    have hfst : (scanFrom nodes parent ceil (k + 1) (PROFILER_NODES_MAX - (k + 1))
        ((nodes k).total_cycles, (k : Int))).1 = (nodes k).total_cycles := by
      rw [← hsplit, hi, hk.2]
    have hstab := scanFrom_stable nodes parent ceil (k + 1)
      (PROFILER_NODES_MAX - (k + 1)) ((nodes k).total_cycles, (k : Int)) hfst
    rw [hstab] at hsplit
    rw [hi] at hsplit
    simp only [Prod.mk.injEq] at hsplit
    omega
  · -- no takeover at k; the final maximum already equals the running maximum,
    -- so the scan is stable after k and the selected index is below k, not i
    have hstepk : scanStep nodes parent ceil k a1 = a1 := by
      unfold scanStep
      split
      · next hg => exact absurd hg.2.1 (Nat.not_lt.mpr hge)
      · rfl
    rw [hstepk] at hsplit
    have hfst : (scanFrom nodes parent ceil (k + 1) (PROFILER_NODES_MAX - (k + 1)) a1).1
        = (nodes i).total_cycles := by
      rw [← hsplit, hi]
    have hmono := scanFrom_fst_le nodes parent ceil (k + 1) (PROFILER_NODES_MAX - (k + 1)) a1
    have hck : (nodes k).total_cycles = (nodes i).total_cycles := hk.2
    have ha1fst : a1.1 = (nodes i).total_cycles := by omega
    have hstab := scanFrom_stable nodes parent ceil (k + 1)
      (PROFILER_NODES_MAX - (k + 1)) a1 (by omega)
    rw [hstab] at hsplit
    rcases scanFrom_cases nodes parent ceil 0 k (0, -1) with heq | ⟨m, _, hm2, hm3, _⟩
    · rw [ha1, heq, hi] at hsplit
      simp only [Prod.mk.injEq] at hsplit
      omega
    · rw [ha1, hm3, hi] at hsplit
      simp only [Prod.mk.injEq] at hsplit
      omega

/-! ### Properties of the per-level selection loop -/

/-- Distinct positive cycle values of the children of `parent` lying below
the ceiling; the selection loop emits exactly one sibling per such value. -/
def childCycleValues (nodes : Nat → ProfilerNode) (parent : Int) (ceil : Nat) :
    Finset Nat :=
  ((Finset.range PROFILER_NODES_MAX).filter (fun k =>
    (nodes k).parent_id = parent ∧ 0 < (nodes k).total_cycles ∧
      (nodes k).total_cycles < ceil)).image (fun k => (nodes k).total_cycles)

theorem selGo_succ (nodes : Nat → ProfilerNode) (parent : Int) (i ceil : Nat) :
    selGo nodes parent (i + 1) ceil
      = if 0 ≤ (scanChildren nodes parent ceil).2 then
          ((scanChildren nodes parent ceil).2.toNat, (scanChildren nodes parent ceil).1)
            :: selGo nodes parent i (scanChildren nodes parent ceil).1
        else [] := rfl

theorem selGo_notfound (nodes : Nat → ProfilerNode) (parent : Int) (ceil i : Nat)
    (h : scanChildren nodes parent ceil = (0, -1)) :
    selGo nodes parent i ceil = [] := by
  cases i with
  | zero => rfl
  | succ i =>
    rw [selGo_succ, h]
    rw [if_neg (by decide)]

theorem selGo_found (nodes : Nat → ProfilerNode) (parent : Int) (ceil i c j : Nat)
    (h : scanChildren nodes parent ceil = (c, (j : Int))) (hi : i ≠ 0) :
    selGo nodes parent i ceil = (j, c) :: selGo nodes parent (i - 1) c := by
  cases i with
  | zero => exact absurd rfl hi
  | succ i =>
    rw [selGo_succ, h]
    rw [if_pos (Int.natCast_nonneg j)]
    simp

theorem selGo_mem (nodes : Nat → ProfilerNode) (parent : Int) :
    ∀ i ceil p, p ∈ selGo nodes parent i ceil →
      p.1 < PROFILER_NODES_MAX ∧ (nodes p.1).parent_id = parent ∧
      p.2 = (nodes p.1).total_cycles ∧ 0 < p.2 ∧ p.2 < ceil := by
  intro i
  induction i with
  | zero => intro ceil p hp; simp [selGo] at hp
  | succ i ih =>
    intro ceil p hp
    by_cases hf : 0 ≤ (scanChildren nodes parent ceil).2
    · obtain ⟨m, hm1, hm3, hm4, hm5, hm6⟩ := scanChildren_found nodes parent ceil hf
      rw [selGo_found nodes parent ceil (i + 1) _ m hm3 (Nat.succ_ne_zero i)] at hp
      simp only [Nat.add_sub_cancel] at hp
      rcases List.mem_cons.mp hp with hph | hpt
      · subst hph
        exact ⟨hm1, hm4, rfl, hm5, hm6⟩
      · obtain ⟨h1, h2, h3, h4, h5⟩ := ih _ p hpt
        exact ⟨h1, h2, h3, h4, Nat.lt_trans h5 hm6⟩
    · rw [selGo_notfound nodes parent ceil _ (scanChildren_notfound nodes parent ceil hf)] at hp
      simp at hp

theorem selGo_chain (nodes : Nat → ProfilerNode) (parent : Int) :
    ∀ i ceil, List.Chain' (fun a b : Nat × Nat => b.2 < a.2) (selGo nodes parent i ceil) := by
  intro i
  induction i with
  | zero => intro ceil; simp [selGo]
  | succ i ih =>
    intro ceil
    by_cases hf : 0 ≤ (scanChildren nodes parent ceil).2
    · obtain ⟨m, _, hm3, _, _, _⟩ := scanChildren_found nodes parent ceil hf
      rw [selGo_found nodes parent ceil (i + 1) _ m hm3 (Nat.succ_ne_zero i)]
      simp only [Nat.add_sub_cancel]
      apply List.chain'_cons'.mpr
      refine ⟨?_, ih _⟩
      intro y hy
      have hym : y ∈ selGo nodes parent i (nodes m).total_cycles :=
        List.mem_of_mem_head? hy
      exact (selGo_mem nodes parent i _ y hym).2.2.2.2
    · rw [selGo_notfound nodes parent ceil _ (scanChildren_notfound nodes parent ceil hf)]
      simp

theorem selGo_first (nodes : Nat → ProfilerNode) (parent : Int) :
    ∀ i ceil p, p ∈ selGo nodes parent i ceil →
      ∀ k, k < p.1 → ¬((nodes k).parent_id = parent ∧
        (nodes k).total_cycles = p.2) := by
  intro i
  induction i with
  | zero => intro ceil p hp; simp [selGo] at hp
  | succ i ih =>
    intro ceil p hp
    by_cases hf : 0 ≤ (scanChildren nodes parent ceil).2
    · obtain ⟨m, _, hm3, _, hm5, _⟩ := scanChildren_found nodes parent ceil hf
      rw [selGo_found nodes parent ceil (i + 1) _ m hm3 (Nat.succ_ne_zero i)] at hp
      simp only [Nat.add_sub_cancel] at hp
      rcases List.mem_cons.mp hp with hph | hpt
      · subst hph
        exact scanChildren_first nodes parent ceil m hm3 hm5
      · exact ih _ p hpt
    · rw [selGo_notfound nodes parent ceil _ (scanChildren_notfound nodes parent ceil hf)] at hp
      simp at hp

theorem selGo_complete (nodes : Nat → ProfilerNode) (parent : Int) :
    ∀ i ceil k, (childCycleValues nodes parent ceil).card ≤ i →
      k < PROFILER_NODES_MAX → (nodes k).parent_id = parent →
      0 < (nodes k).total_cycles → (nodes k).total_cycles < ceil →
      ∃ p ∈ selGo nodes parent i ceil, p.2 = (nodes k).total_cycles := by
  intro i
  induction i with
  | zero =>
    intro ceil k hcard hk hp h0 hc
    exfalso
    have hmem : (nodes k).total_cycles ∈ childCycleValues nodes parent ceil := by
      apply Finset.mem_image.mpr
      exact ⟨k, Finset.mem_filter.mpr ⟨Finset.mem_range.mpr hk, hp, h0, hc⟩, rfl⟩
    have := Finset.card_pos.mpr ⟨_, hmem⟩
    omega
  | succ i ih =>
    intro ceil k hcard hk hp h0 hc
    have hf := scanChildren_found_of_child nodes parent ceil k hk hp h0 hc
    obtain ⟨m, hm1, hm3, hm4, hm5, hm6⟩ := scanChildren_found nodes parent ceil hf
    rw [selGo_found nodes parent ceil (i + 1) _ m hm3 (Nat.succ_ne_zero i)]
    simp only [Nat.add_sub_cancel]
    by_cases heq : (nodes k).total_cycles = (nodes m).total_cycles
    · exact ⟨(m, (nodes m).total_cycles), List.mem_cons_self _ _, heq.symm⟩
    · have hub : (nodes k).total_cycles ≤ (nodes m).total_cycles := by
        have h1 := scanChildren_ub nodes parent ceil k hk hp hc
        rw [hm3] at h1
        exact h1
      have hlt : (nodes k).total_cycles < (nodes m).total_cycles :=
        Nat.lt_of_le_of_ne hub heq
      have hsub : childCycleValues nodes parent ((nodes m).total_cycles)
          ⊆ (childCycleValues nodes parent ceil).erase ((nodes m).total_cycles) := by
        intro v hv
        obtain ⟨x, hx, hvx⟩ := Finset.mem_image.mp hv
        obtain ⟨hxr, hxp, hx0, hxc⟩ := Finset.mem_filter.mp hx
        apply Finset.mem_erase.mpr
        constructor
        · omega
        · exact Finset.mem_image.mpr
            ⟨x, Finset.mem_filter.mpr ⟨hxr, hxp, hx0, Nat.lt_trans hxc hm6⟩, hvx⟩
      have hmemc : (nodes m).total_cycles ∈ childCycleValues nodes parent ceil := by
        apply Finset.mem_image.mpr
        exact ⟨m, Finset.mem_filter.mpr ⟨Finset.mem_range.mpr hm1, hm4, hm5, hm6⟩, rfl⟩
      have hcard2 : (childCycleValues nodes parent ((nodes m).total_cycles)).card ≤ i := by
        have h1 := Finset.card_le_card hsub
        have h2 := Finset.card_erase_of_mem hmemc
        have h3 := Finset.card_pos.mpr ⟨_, hmemc⟩
        omega
      obtain ⟨p, hpmem, hpeq⟩ := ih ((nodes m).total_cycles) k hcard2 hk hp h0 hlt
      exact ⟨p, List.mem_cons_of_mem _ hpmem, hpeq⟩

/-! ### Properties of the level renderer -/

theorem renderGo_succ (child : Nat → Nat → List (Nat × Nat))
    (nodes : Nat → ProfilerNode) (parent : Int) (level i ceil : Nat) :
    renderGo child nodes parent level (i + 1) ceil
      = if 0 ≤ (scanChildren nodes parent ceil).2 then
          ((scanChildren nodes parent ceil).2.toNat, level) ::
            (child (scanChildren nodes parent ceil).2.toNat (level + 1) ++
              renderGo child nodes parent level i (scanChildren nodes parent ceil).1)
        else [] := rfl

theorem renderGo_notfound (child : Nat → Nat → List (Nat × Nat))
    (nodes : Nat → ProfilerNode) (parent : Int) (level : Nat) (ceil i : Nat)
    (h : scanChildren nodes parent ceil = (0, -1)) :
    renderGo child nodes parent level i ceil = [] := by
  cases i with
  | zero => rfl
  | succ i =>
    rw [renderGo_succ, h]
    rw [if_neg (by decide)]

theorem renderGo_found (child : Nat → Nat → List (Nat × Nat))
    (nodes : Nat → ProfilerNode) (parent : Int) (level : Nat) (ceil i c j : Nat)
    (h : scanChildren nodes parent ceil = (c, (j : Int))) (hi : i ≠ 0) :
    renderGo child nodes parent level i ceil
      = (j, level) :: (child j (level + 1) ++
          renderGo child nodes parent level (i - 1) c) := by
  cases i with
  | zero => exact absurd rfl hi
  | succ i =>
    rw [renderGo_succ, h]
    rw [if_pos (Int.natCast_nonneg j)]
    simp

/-- The renderer at one level is the selection sequence with each selected
region's subtree spliced in immediately after it. -/
theorem renderGo_eq_selGo (child : Nat → Nat → List (Nat × Nat))
    (nodes : Nat → ProfilerNode) (parent : Int) (level : Nat) :
    ∀ i ceil, renderGo child nodes parent level i ceil
      = (selGo nodes parent i ceil).flatMap
          (fun p => (p.1, level) :: child p.1 (level + 1)) := by
  intro i
  induction i with
  | zero => intro ceil; rfl
  | succ i ih =>
    intro ceil
    by_cases hf : 0 ≤ (scanChildren nodes parent ceil).2
    · obtain ⟨m, _, hm3, _, _, _⟩ := scanChildren_found nodes parent ceil hf
      rw [renderGo_found child nodes parent level ceil (i + 1) _ m hm3 (Nat.succ_ne_zero i),
        selGo_found nodes parent ceil (i + 1) _ m hm3 (Nat.succ_ne_zero i)]
      simp only [Nat.add_sub_cancel, List.flatMap_cons, List.cons_append, List.nil_append]
      rw [ih]
    · rw [renderGo_notfound child nodes parent level ceil _
          (scanChildren_notfound nodes parent ceil hf),
        selGo_notfound nodes parent ceil _ (scanChildren_notfound nodes parent ceil hf)]
      rfl

theorem renderTree_succ (fuel : Nat) (nodes : Nat → ProfilerNode) (parent : Int)
    (level : Nat) :
    renderTree (fuel + 1) nodes parent level
      = (selGo nodes parent PROFILER_NODES_MAX UINT64_MAX).flatMap
          (fun p => (p.1, level) :: renderTree fuel nodes (p.1 : Int) (level + 1)) :=
  renderGo_eq_selGo (fun idx lvl => renderTree fuel nodes (idx : Int) lvl)
    nodes parent level PROFILER_NODES_MAX UINT64_MAX

/-- Every row the renderer emits names a registry slot with positive
accumulated cycles. -/
theorem renderTree_mem (nodes : Nat → ProfilerNode) :
    ∀ fuel parent level p, p ∈ renderTree fuel nodes parent level →
      p.1 < PROFILER_NODES_MAX ∧ 0 < (nodes p.1).total_cycles := by
  intro fuel
  induction fuel with
  | zero => intro parent level p hp; simp [renderTree] at hp
  | succ fuel ih =>
    intro parent level p hp
    rw [renderTree_succ] at hp
    obtain ⟨q, hq, hpq⟩ := List.mem_flatMap.mp hp
    rcases List.mem_cons.mp hpq with hph | hpt
    · obtain ⟨h1, _, h3, h4, _⟩ := selGo_mem nodes parent _ _ q hq
      subst hph
      exact ⟨h1, h3 ▸ h4⟩
    · exact ih _ _ p hpt

/-! ### Evaluation helpers -/

/-- Evaluate the full scan by scanning an initial segment and skipping a
tail in which no node qualifies for any running maximum. -/
theorem scanChildren_eval (nodes : Nat → ProfilerNode) (parent : Int) (ceil m : Nat)
    (hm : m ≤ PROFILER_NODES_MAX)
    (h : ∀ k, m ≤ k → k < PROFILER_NODES_MAX →
      ¬((nodes k).parent_id = parent ∧ 0 < (nodes k).total_cycles ∧
        (nodes k).total_cycles < ceil)) :
    scanChildren nodes parent ceil = scanFrom nodes parent ceil 0 m (0, -1) := by
  rw [scanChildren_def]
  conv_lhs => rw [show PROFILER_NODES_MAX = m + (PROFILER_NODES_MAX - m) from by omega]
  rw [scanFrom_add]
  simp only [Nat.zero_add]
  exact scanFrom_skip nodes parent ceil m (PROFILER_NODES_MAX - m) _
    (fun k h1 h2 => h k h1 (by omega))

theorem renderTree_unfold (fuel : Nat) (nodes : Nat → ProfilerNode) (parent : Int)
    (level : Nat) :
    renderTree (fuel + 1) nodes parent level
      = renderGo (fun idx lvl => renderTree fuel nodes (idx : Int) lvl) nodes parent
          level PROFILER_NODES_MAX UINT64_MAX := rfl

/-! ### The accumulation invariant of the trace semantics -/

theorem runEvents_nil (st : ProfilerState × List (Nat × Nat)) : runEvents [] st = st := rfl

theorem runEvents_cons (e : PEvent) (es : List PEvent)
    (st : ProfilerState × List (Nat × Nat)) :
    runEvents (e :: es) st = runEvents es (stepEvent st e) := rfl

theorem startStep_total (s : ProfilerState) (id : Nat) (name : String) (r : Nat) :
    ((profilerStartStep s id name).profiler_nodes r).total_cycles
      = (s.profiler_nodes r).total_cycles := by
  unfold profilerStartStep
  by_cases hid : r = id
  · subst hid; simp
  · simp [hid]

theorem stopStep_total_self (s : ProfilerState) (id : Nat) (t0 t : Nat) :
    ((profilerStopStep s id t0 t).profiler_nodes id).total_cycles
      = ((s.profiler_nodes id).total_cycles + u64sub t t0) % U64MOD := by
  unfold profilerStopStep u64add
  simp

theorem stopStep_total_other (s : ProfilerState) (id : Nat) (t0 t : Nat) (r : Nat)
    (hr : r ≠ id) :
    ((profilerStopStep s id t0 t).profiler_nodes r).total_cycles
      = (s.profiler_nodes r).total_cycles := by
  unfold profilerStopStep
  simp [hr]

/-- Accumulation invariant: running a trace adds, modulo `2^64`, the summed
deltas of the matched pairs the trace contributes for region `r`. -/
theorem run_total (es : List PEvent) :
    ∀ (s : ProfilerState) (stk : List (Nat × Nat)) (r : Nat),
      (s.profiler_nodes r).total_cycles < U64MOD →
      ((runEvents es (s, stk)).1.profiler_nodes r).total_cycles
        = ((s.profiler_nodes r).total_cycles
            + (((pairsAux es stk).filter (fun p => p.1 == r)).map pairDelta).sum)
            % U64MOD := by
  induction es with
  | nil =>
    intro s stk r h
    simp [runEvents_nil, pairsAux]
    exact (Nat.mod_eq_of_lt h).symm
  | cons e es ih =>
    intro s stk r h
    cases e with
    | start id name t =>
      rw [show runEvents (PEvent.start id name t :: es) (s, stk)
            = runEvents es (profilerStartStep s id name, (id, t) :: stk) from rfl,
          show pairsAux (PEvent.start id name t :: es) stk
            = pairsAux es ((id, t) :: stk) from rfl]
      rw [ih _ _ r (by rw [startStep_total]; exact h), startStep_total]
    | stop id t =>
      cases stk with
      | nil =>
        rw [show runEvents (PEvent.stop id t :: es) (s, [])
              = runEvents es (s, []) from rfl,
            show pairsAux (PEvent.stop id t :: es) []
              = pairsAux es [] from rfl]
        exact ih s [] r h
      | cons top rest =>
        obtain ⟨tid, t0⟩ := top
        rw [show runEvents (PEvent.stop id t :: es) (s, (tid, t0) :: rest)
              = runEvents es (profilerStopStep s id t0 t, rest) from rfl,
            show pairsAux (PEvent.stop id t :: es) ((tid, t0) :: rest)
              = (id, t0, t) :: pairsAux es rest from rfl]
        by_cases hid : id = r
        · subst hid
          rw [List.filter_cons_of_pos (by simp)]
          rw [List.map_cons, List.sum_cons]
          rw [ih _ _ id (by rw [stopStep_total_self]; exact Nat.mod_lt _ (by norm_num [U64MOD]))]
          rw [stopStep_total_self]
          show _ = ((s.profiler_nodes id).total_cycles
            + (pairDelta (id, t0, t) + _)) % U64MOD
          rw [Nat.mod_add_mod]
          rw [show pairDelta (id, t0, t) = u64sub t t0 from rfl]
          ring_nf
        · rw [List.filter_cons_of_neg (by simpa using hid)]
          rw [ih _ _ r (by rw [stopStep_total_other s id t0 t r (fun hc => hid hc.symm)]; exact h),
            stopStep_total_other s id t0 t r (fun hc => hid hc.symm)]

/-! ### The seconds conversion -/

theorem fdiv_finite (a b : ℚ) (hb : b ≠ 0) :
    FVal.div (.finite a) (.finite b) = .finite (a / b) := by
  simp only [FVal.div]
  rw [if_neg hb]

theorem fdiv_zero_pos (a : ℚ) (ha : a ≠ 0) :
    FVal.div (.finite a) (.finite 0) = .inf := by
  simp only [FVal.div, if_true]
  rw [if_neg ha]

/-- With the calibration still at its zero initial value, the seconds
conversion divides by zero and yields `+inf` for any nonzero cycle count. -/
theorem secondsValue_zero_measure (cycles : Nat) (h : cycles ≠ 0) :
    secondsValue 0 cycles = FVal.inf := by
  unfold secondsValue
  rw [fdiv_finite _ _ (by unfold PROFILER_MEASURE_SECONDS; norm_num)]
  rw [show ((0 : Nat) : ℚ) / PROFILER_MEASURE_SECONDS = 0 from by simp]
  exact fdiv_zero_pos _ (Nat.cast_ne_zero.mpr h)

theorem formatFixed6_half : formatFixed6 (1 / 2) = "0.500000" := by
  unfold formatFixed6
  rw [show ((1 : ℚ) / 2 * 1000000 + 1 / 2) = 500000 + 1 / 2 from by norm_num]
  rw [show Int.floor ((500000 : ℚ) + 1 / 2) = 500000 from by
    rw [Int.floor_eq_iff]
    constructor <;> norm_num]
  decide

/-! ### Concrete scenario states and their evaluations -/

/-- The state after the startup reset (`_profiler_initialize` runs
`profiler_reset()` first). -/
def initState : ProfilerState := profilerResetStep zeroState

theorem initState_cycles (k : Nat) : (initState.profiler_nodes k).total_cycles = 0 := by
  unfold initState profilerResetStep zeroState resetNode zeroNode
  by_cases h : k < PROFILER_NODES_MAX <;> simp [h]

/-- The `Start("A"); Start("B"); Stop("B"); Stop("A")` scenario, with call
sites 0 and 1 and cycle counter readings 0, 10, 30, 100. -/
def traceAB : List PEvent :=
  [.start 0 "A" 0, .start 1 "B" 10, .stop 1 30, .stop 0 100]

/-- The profiler state after running `traceAB` from the reset state. -/
def stAB : ProfilerState := (runEvents traceAB (initState, [])).1

theorem stAB_node_rest (k : Nat) (h0 : k ≠ 0) (h1 : k ≠ 1) :
    stAB.profiler_nodes k = initState.profiler_nodes k := by
  simp [stAB, traceAB, runEvents, stepEvent, profilerStartStep, profilerStopStep, h0, h1]

theorem stAB_zero (k : Nat) (h1 : 2 ≤ k) (h2 : k < PROFILER_NODES_MAX) :
    (stAB.profiler_nodes k).total_cycles = 0 := by
  rw [stAB_node_rest k (by omega) (by omega)]
  exact initState_cycles k

/-- Evaluate the full scan by scanning an initial segment when every later
slot has zero accumulated cycles. -/
theorem scanChildren_eval_zero (nodes : Nat → ProfilerNode) (parent : Int)
    (ceil m : Nat) (hm : m ≤ PROFILER_NODES_MAX)
    (hz : ∀ k, m ≤ k → k < PROFILER_NODES_MAX → (nodes k).total_cycles = 0) :
    scanChildren nodes parent ceil = scanFrom nodes parent ceil 0 m (0, -1) :=
  scanChildren_eval nodes parent ceil m hm (fun k h1 h2 hc => by
    rw [hz k h1 h2] at hc
    exact absurd hc.2.1 (lt_irrefl 0))

theorem stAB_scan1 : scanChildren stAB.profiler_nodes (-1) UINT64_MAX
    = (100, ((0 : Nat) : Int)) := by
  rw [scanChildren_eval_zero _ _ _ 2 (by decide) stAB_zero]
  decide

theorem stAB_scan2 : scanChildren stAB.profiler_nodes 0 UINT64_MAX
    = (20, ((1 : Nat) : Int)) := by
  rw [scanChildren_eval_zero _ _ _ 2 (by decide) stAB_zero]
  decide

theorem stAB_scan3 : scanChildren stAB.profiler_nodes 1 UINT64_MAX = (0, -1) := by
  rw [scanChildren_eval_zero _ _ _ 2 (by decide) stAB_zero]
  decide

theorem stAB_scan4 : scanChildren stAB.profiler_nodes 0 20 = (0, -1) := by
  rw [scanChildren_eval_zero _ _ _ 2 (by decide) stAB_zero]
  decide

theorem stAB_scan5 : scanChildren stAB.profiler_nodes (-1) 100 = (0, -1) := by
  rw [scanChildren_eval_zero _ _ _ 2 (by decide) stAB_zero]
  decide

theorem renderTree_notfound_all (fuel : Nat) (nodes : Nat → ProfilerNode)
    (parent : Int) (level : Nat)
    (h : scanChildren nodes parent UINT64_MAX = (0, -1)) :
    renderTree fuel nodes parent level = [] := by
  cases fuel with
  | zero => rfl
  | succ fuel =>
    rw [renderTree_unfold]
    exact renderGo_notfound _ _ _ _ _ _ h

theorem renderTree_found (fuel : Nat) (nodes : Nat → ProfilerNode) (parent : Int)
    (level c j : Nat)
    (h : scanChildren nodes parent UINT64_MAX = (c, (j : Int))) :
    renderTree (fuel + 1) nodes parent level
      = (j, level) :: (renderTree fuel nodes (j : Int) (level + 1) ++
          renderGo (fun idx lvl => renderTree fuel nodes (idx : Int) lvl) nodes parent
            level (PROFILER_NODES_MAX - 1) c) := by
  rw [renderTree_unfold]
  rw [renderGo_found _ _ _ _ _ _ c j h (by decide)]

theorem stAB_rows_gen (fuel : Nat) :
    renderTree (fuel + 2) stAB.profiler_nodes (-1) 0 = [(0, 0), (1, 1)] := by
  rw [renderTree_found (fuel + 1) _ _ _ 100 0 stAB_scan1]
  simp only [Nat.cast_zero, Nat.cast_one, Nat.cast_ofNat]
  rw [renderTree_found fuel _ _ _ 20 1 stAB_scan2]
  simp only [Nat.cast_zero, Nat.cast_one, Nat.cast_ofNat]
  rw [renderTree_notfound_all fuel _ _ _ stAB_scan3]
  rw [renderGo_notfound _ _ _ _ _ _ stAB_scan4]
  rw [renderGo_notfound _ _ _ _ _ _ stAB_scan5]
  rfl

theorem stAB_rows : profiler_get_results_sorted stAB.profiler_nodes (-1) 0
    = [(0, 0), (1, 1)] := stAB_rows_gen 255

/-- Two top-level siblings with exactly equal cycle counts. -/
def exNodesTie : Nat → ProfilerNode := fun k =>
  if k = 0 then ⟨"A", -1, 100⟩ else if k = 1 then ⟨"B", -1, 100⟩ else resetNode

theorem tie_zero (k : Nat) (h1 : 2 ≤ k) (h2 : k < PROFILER_NODES_MAX) :
    (exNodesTie k).total_cycles = 0 := by
  unfold exNodesTie
  rw [if_neg (by omega : ¬k = 0), if_neg (by omega : ¬k = 1)]
  rfl

theorem tie_scan1 : scanChildren exNodesTie (-1) UINT64_MAX
    = (100, ((0 : Nat) : Int)) := by
  rw [scanChildren_eval_zero _ _ _ 2 (by decide) tie_zero]
  decide

theorem tie_scan2 : scanChildren exNodesTie 0 UINT64_MAX = (0, -1) := by
  rw [scanChildren_eval_zero _ _ _ 2 (by decide) tie_zero]
  decide

theorem tie_scan3 : scanChildren exNodesTie (-1) 100 = (0, -1) := by
  rw [scanChildren_eval_zero _ _ _ 2 (by decide) tie_zero]
  decide

theorem tie_rows_gen (fuel : Nat) :
    renderTree (fuel + 1) exNodesTie (-1) 0 = [(0, 0)] := by
  rw [renderTree_found fuel _ _ _ 100 0 tie_scan1]
  simp only [Nat.cast_zero, Nat.cast_one, Nat.cast_ofNat]
  rw [renderTree_notfound_all fuel _ _ _ tie_scan2]
  rw [renderGo_notfound _ _ _ _ _ _ tie_scan3]
  rfl

theorem tie_rows : profiler_get_results_sorted exNodesTie (-1) 0 = [(0, 0)] :=
  tie_rows_gen 256

/-- Three top-level siblings with pairwise distinct cycle counts. -/
def exNodesSib : Nat → ProfilerNode := fun k =>
  if k = 0 then ⟨"A", -1, 100⟩ else if k = 1 then ⟨"B", -1, 300⟩
  else if k = 2 then ⟨"C", -1, 200⟩ else resetNode

theorem sib_zero (k : Nat) (h1 : 3 ≤ k) (h2 : k < PROFILER_NODES_MAX) :
    (exNodesSib k).total_cycles = 0 := by
  unfold exNodesSib
  rw [if_neg (by omega : ¬k = 0), if_neg (by omega : ¬k = 1), if_neg (by omega : ¬k = 2)]
  rfl

theorem sib_scan1 : scanChildren exNodesSib (-1) UINT64_MAX
    = (300, ((1 : Nat) : Int)) := by
  rw [scanChildren_eval_zero _ _ _ 3 (by decide) sib_zero]
  decide

theorem sib_scan2 : scanChildren exNodesSib (-1) 300 = (200, ((2 : Nat) : Int)) := by
  rw [scanChildren_eval_zero _ _ _ 3 (by decide) sib_zero]
  decide

theorem sib_scan3 : scanChildren exNodesSib (-1) 200 = (100, ((0 : Nat) : Int)) := by
  rw [scanChildren_eval_zero _ _ _ 3 (by decide) sib_zero]
  decide

theorem sib_scan4 : scanChildren exNodesSib (-1) 100 = (0, -1) := by
  rw [scanChildren_eval_zero _ _ _ 3 (by decide) sib_zero]
  decide

theorem sib_sel_gen (i : Nat) :
    selGo exNodesSib (-1) (i + 4) UINT64_MAX = [(1, 300), (2, 200), (0, 100)] := by
  rw [selGo_found _ _ _ _ 300 1 sib_scan1 (by omega)]
  rw [show i + 4 - 1 = i + 3 from by omega]
  rw [selGo_found _ _ _ _ 200 2 sib_scan2 (by omega)]
  rw [show i + 3 - 1 = i + 2 from by omega]
  rw [selGo_found _ _ _ _ 100 0 sib_scan3 (by omega)]
  rw [show i + 2 - 1 = i + 1 from by omega]
  rw [selGo_notfound _ _ _ _ sib_scan4]

theorem sib_sel : selGo exNodesSib (-1) PROFILER_NODES_MAX UINT64_MAX
    = [(1, 300), (2, 200), (0, 100)] := sib_sel_gen 252

/-- A calibrated state: measured 300000000 cycles over the 100 ms window and
one root region with 1500000000 accumulated cycles. -/
def st4 : ProfilerState :=
  ⟨-1, 300000000, fun k => if k = 0 then ⟨"X", -1, 1500000000⟩ else resetNode⟩

theorem st4_zero (k : Nat) (h1 : 1 ≤ k) (h2 : k < PROFILER_NODES_MAX) :
    (st4.profiler_nodes k).total_cycles = 0 := by
  show (if k = 0 then (⟨"X", -1, 1500000000⟩ : ProfilerNode) else resetNode).total_cycles = 0
  rw [if_neg (by omega : ¬k = 0)]
  rfl

theorem st4_scan1 : scanChildren st4.profiler_nodes (-1) UINT64_MAX
    = (1500000000, ((0 : Nat) : Int)) := by
  rw [scanChildren_eval_zero _ _ _ 1 (by decide) st4_zero]
  decide

theorem st4_scan2 : scanChildren st4.profiler_nodes 0 UINT64_MAX = (0, -1) := by
  rw [scanChildren_eval_zero _ _ _ 1 (by decide) st4_zero]
  decide

theorem st4_scan3 : scanChildren st4.profiler_nodes (-1) 1500000000 = (0, -1) := by
  rw [scanChildren_eval_zero _ _ _ 1 (by decide) st4_zero]
  decide

theorem st4_rows_gen (fuel : Nat) :
    renderTree (fuel + 1) st4.profiler_nodes (-1) 0 = [(0, 0)] := by
  rw [renderTree_found fuel _ _ _ 1500000000 0 st4_scan1]
  simp only [Nat.cast_zero, Nat.cast_one, Nat.cast_ofNat]
  rw [renderTree_notfound_all fuel _ _ _ st4_scan2]
  rw [renderGo_notfound _ _ _ _ _ _ st4_scan3]
  rfl

theorem st4_rows : profiler_get_results_sorted st4.profiler_nodes (-1) 0 = [(0, 0)] :=
  st4_rows_gen 256

/-- An uncalibrated state (`profiler_cycles_measure` still zero) with one
root region with 5 accumulated cycles. -/
def st9 : ProfilerState :=
  ⟨-1, 0, fun k => if k = 0 then ⟨"R", -1, 5⟩ else resetNode⟩

theorem st9_zero (k : Nat) (h1 : 1 ≤ k) (h2 : k < PROFILER_NODES_MAX) :
    (st9.profiler_nodes k).total_cycles = 0 := by
  show (if k = 0 then (⟨"R", -1, 5⟩ : ProfilerNode) else resetNode).total_cycles = 0
  rw [if_neg (by omega : ¬k = 0)]
  rfl

theorem st9_scan1 : scanChildren st9.profiler_nodes (-1) UINT64_MAX
    = (5, ((0 : Nat) : Int)) := by
  rw [scanChildren_eval_zero _ _ _ 1 (by decide) st9_zero]
  decide

theorem st9_scan2 : scanChildren st9.profiler_nodes 0 UINT64_MAX = (0, -1) := by
  rw [scanChildren_eval_zero _ _ _ 1 (by decide) st9_zero]
  decide

theorem st9_scan3 : scanChildren st9.profiler_nodes (-1) 5 = (0, -1) := by
  rw [scanChildren_eval_zero _ _ _ 1 (by decide) st9_zero]
  decide

theorem st9_rows_gen (fuel : Nat) :
    renderTree (fuel + 1) st9.profiler_nodes (-1) 0 = [(0, 0)] := by
  rw [renderTree_found fuel _ _ _ 5 0 st9_scan1]
  simp only [Nat.cast_zero, Nat.cast_one, Nat.cast_ofNat]
  rw [renderTree_notfound_all fuel _ _ _ st9_scan2]
  rw [renderGo_notfound _ _ _ _ _ _ st9_scan3]
  rfl

theorem st9_rows : profiler_get_results_sorted st9.profiler_nodes (-1) 0 = [(0, 0)] :=
  st9_rows_gen 256

/-- With a reset registry the scan finds nothing, for any parent and ceiling. -/
theorem reset_scan (s : ProfilerState) (parent : Int) (ceil : Nat) :
    scanChildren (profilerResetStep s).profiler_nodes parent ceil = (0, -1) := by
  rw [scanChildren_eval_zero _ _ _ 0 (Nat.zero_le _) (fun k h1 h2 => by
    unfold profilerResetStep
    simp [h2, resetNode])]
  rfl

theorem childCycleValues_card_le (nodes : Nat → ProfilerNode) (parent : Int)
    (ceil : Nat) :
    (childCycleValues nodes parent ceil).card ≤ PROFILER_NODES_MAX := by
  unfold childCycleValues
  calc (Finset.image _ _).card
      ≤ ((Finset.range PROFILER_NODES_MAX).filter _).card := Finset.card_image_le
    _ ≤ (Finset.range PROFILER_NODES_MAX).card := Finset.card_filter_le _ _
    _ = PROFILER_NODES_MAX := Finset.card_range _

/-! ### Claim theorems -/

/-- The recursion scenario trace: the same call site (id 0) entered twice,
with cycle readings 10/25 and 30/40, so the two deltas are 15 and 10. -/
def traceRec : List PEvent :=
  [.start 0 "f" 10, .stop 0 25, .start 0 "f" 30, .stop 0 40]

/-- C1: for every properly nested trace run from the reset state, a region's
accumulated `total_cycles` equals the sum, in `uint64_t` arithmetic, of the
stop-minus-start cycle deltas over every matched Start/Stop pair for that
region; re-entering the same region identity adds to the running total.  When
the mathematical sum does not overflow `2^64`, the stored total is exactly
that sum. -/
theorem c1_total_cycles_is_pair_sum (es : List PEvent)
    (h : wellNested es = true) (r : Nat) :
    ((runEvents es (initState, [])).1.profiler_nodes r).total_cycles
      = regionPairsSum es r % U64MOD
    ∧ (regionPairsSum es r < U64MOD →
        ((runEvents es (initState, [])).1.profiler_nodes r).total_cycles
          = regionPairsSum es r) := by
  have h0 : (initState.profiler_nodes r).total_cycles = 0 := initState_cycles r
  have hmain := run_total es initState [] r (by rw [h0]; norm_num [U64MOD])
  rw [h0] at hmain
  simp only [Nat.zero_add] at hmain
  have hsum : regionPairsSum es r
      = (((pairsAux es []).filter (fun p => p.1 == r)).map pairDelta).sum := rfl
  constructor
  · rw [hsum]
    exact hmain
  · intro hlt
    rw [hsum] at hlt ⊢
    rw [hmain]
    exact Nat.mod_eq_of_lt hlt

/-- C1 witness: the recursion trace `traceRec` is properly nested and region 0
accumulates 15 + 10 = 25 cycles. -/
theorem c1_total_cycles_is_pair_sum_witness :
    wellNested traceRec = true
    ∧ (((runEvents traceRec (initState, [])).1.profiler_nodes 0).total_cycles
        = regionPairsSum traceRec 0 % U64MOD
      ∧ (regionPairsSum traceRec 0 < U64MOD →
          ((runEvents traceRec (initState, [])).1.profiler_nodes 0).total_cycles
            = regionPairsSum traceRec 0))
    ∧ regionPairsSum traceRec 0 = 25
    ∧ ((runEvents traceRec (initState, [])).1.profiler_nodes 0).total_cycles = 25 :=
  ⟨by decide, c1_total_cycles_is_pair_sum traceRec (by decide) 0, by decide, by decide⟩

/-- The re-entry scenario: site 0 runs once at top level (parent -1), then
again nested inside site 1, all properly nested. -/
def traceReenter : List PEvent :=
  [.start 0 "A" 0, .stop 0 5, .start 1 "B" 10, .start 0 "A" 15, .stop 0 20,
   .stop 1 25]

/-- C2 counterexample: `PROFILER_START` stores `profiler_current_parent` into
the node's `parent_id` on every execution (src/profiler.h line 232), not only
the first.  After `Start(A); Stop(A); Start(B); Start(A); Stop(A); Stop(B)` —
a properly nested trace — region 0's recorded parent is 1, no longer the -1
recorded by its first Start, so the first-start parent is not preserved. -/
theorem c2_counterexample :
    wellNested traceReenter = true
    ∧ ((runEvents [PEvent.start 0 "A" 0] (initState, [])).1.profiler_nodes 0).parent_id = -1
    ∧ ((runEvents traceReenter (initState, [])).1.profiler_nodes 0).parent_id = 1
    ∧ ((runEvents traceReenter (initState, [])).1.profiler_nodes 0).parent_id
        ≠ ((runEvents [PEvent.start 0 "A" 0] (initState, [])).1.profiler_nodes 0).parent_id := by
  decide

/-- C2 amended: every Start call re-records the region's `parent_id` as the
region that is currently open at that moment, so the recorded parent is the
one from the most recent Start call, not the first; it is unchanged only when
every re-entry occurs under the same currently-open parent. -/
theorem c2_parent_follows_cursor (s : ProfilerState) (id : Nat) (name : String) :
    ((profilerStartStep s id name).profiler_nodes id).parent_id
      = s.profiler_current_parent := by
  unfold profilerStartStep
  simp

/-- C3 counterexample: two sibling regions (both parent -1) with exactly equal
nonzero cycle counts; the rendered rows contain only the first-registered
sibling — the second is silently dropped by the strict
repeated-maximum-below-ceiling selection, so not all siblings appear. -/
theorem c3_counterexample :
    (exNodesTie 1).parent_id = (exNodesTie 0).parent_id
    ∧ (exNodesTie 1).total_cycles = (exNodesTie 0).total_cycles
    ∧ 0 < (exNodesTie 1).total_cycles
    ∧ profiler_get_results_sorted exNodesTie (-1) 0 = [(0, 0)]
    ∧ (profiler_get_results_sorted exNodesTie (-1) 0).all (fun p => p.1 != 1) = true := by
  refine ⟨by decide, by decide, by decide, tie_rows, ?_⟩
  rw [tie_rows]
  decide

/-- C3 amended: the rendered rows at every level are the selection loop's
picks with each pick's subtree rendered immediately after it and before the
next sibling (depth-first); the picked siblings are strictly descending in
`total_cycles`; every pick is a child of the current parent with positive
cycles; no earlier-registered sibling shares a pick's cycle count (among
equal-cycle siblings only the first-registered is picked, later ones are
dropped, as are zero-cycle siblings); and every distinct positive cycle value
among the eligible children is picked when the iteration budget covers the
number of distinct values (it always does at the loop's
`PROFILER_NODES_MAX` budget, by `childCycleValues_card_le`). -/
theorem c3_render_order (nodes : Nat → ProfilerNode) (parent : Int)
    (level fuel i ceil : Nat) :
    (renderTree (fuel + 1) nodes parent level
        = (selGo nodes parent PROFILER_NODES_MAX UINT64_MAX).flatMap
            (fun p => (p.1, level) :: renderTree fuel nodes (p.1 : Int) (level + 1)))
    ∧ List.Chain' (fun a b : Nat × Nat => b.2 < a.2) (selGo nodes parent i ceil)
    ∧ (∀ p ∈ selGo nodes parent i ceil,
        (nodes p.1).parent_id = parent ∧ p.2 = (nodes p.1).total_cycles ∧ 0 < p.2)
    ∧ (∀ p ∈ selGo nodes parent i ceil, ∀ k, k < p.1 →
        ¬((nodes k).parent_id = parent ∧ (nodes k).total_cycles = p.2))
    ∧ (∀ k, k < PROFILER_NODES_MAX → (nodes k).parent_id = parent →
        0 < (nodes k).total_cycles → (nodes k).total_cycles < ceil →
        (childCycleValues nodes parent ceil).card ≤ i →
        ∃ p ∈ selGo nodes parent i ceil, p.2 = (nodes k).total_cycles) :=
  ⟨renderTree_succ fuel nodes parent level,
   selGo_chain nodes parent i ceil,
   fun p hp =>
     ⟨(selGo_mem nodes parent i ceil p hp).2.1,
      (selGo_mem nodes parent i ceil p hp).2.2.1,
      (selGo_mem nodes parent i ceil p hp).2.2.2.1⟩,
   fun p hp => selGo_first nodes parent i ceil p hp,
   fun k h1 h2 h3 h4 h5 => selGo_complete nodes parent i ceil k h5 h1 h2 h3 h4⟩

/-- C3 witness: for three top-level siblings with cycles 100, 300, 200 the
selection is `[(1, 300), (2, 200), (0, 100)]`: strictly descending, each a
top-level child, and the value 200 of sibling 2 is selected. -/
theorem c3_render_order_witness :
    List.Chain' (fun a b : Nat × Nat => b.2 < a.2)
      ([(1, 300), (2, 200), (0, 100)] : List (Nat × Nat))
    ∧ ((exNodesSib 1).parent_id = -1
        ∧ ((1 : Nat), (300 : Nat)).2 = (exNodesSib 1).total_cycles
        ∧ 0 < ((1 : Nat), (300 : Nat)).2)
    ∧ (∃ p ∈ selGo exNodesSib (-1) PROFILER_NODES_MAX UINT64_MAX,
        p.2 = (exNodesSib 2).total_cycles) := by
  refine ⟨?_, ?_, ?_⟩
  · have h := (c3_render_order exNodesSib (-1) 0 0 PROFILER_NODES_MAX UINT64_MAX).2.1
    rw [sib_sel] at h
    exact h
  · exact (c3_render_order exNodesSib (-1) 0 0 PROFILER_NODES_MAX UINT64_MAX).2.2.1
      (1, 300) (by rw [sib_sel]; decide)
  · exact (c3_render_order exNodesSib (-1) 0 0 PROFILER_NODES_MAX UINT64_MAX).2.2.2.2
      2 (by decide) (by decide) (by decide) (by decide)
      (childCycleValues_card_le exNodesSib (-1) UINT64_MAX)

/-- C4: calibrating over the 100 ms window with exactly 300000000 elapsed
cycles stores 300000000 in `profiler_cycles_measure`; the conversion factor
`measure / PROFILER_MEASURE_SECONDS` is 3000000000 cycles per second; a
region with 1500000000 accumulated cycles converts to exactly 1/2 second and
its report row renders the seconds column as `0.500000`. -/
theorem c4_calibration_round_trip :
    (profilerCalibrate zeroState 0 300000000).profiler_cycles_measure = 300000000
    ∧ calibrationFactor 300000000 = 3000000000
    ∧ secondsValue 300000000 1500000000 = FVal.finite (1 / 2)
    ∧ (secondsValue 300000000 1500000000).formatF = "0.500000"
    ∧ profiler_get_results st4
        = headerLine1 ++ headerLine2
            ++ (padRight "X" 40 ++ "0.500000" ++ " : " ++ "1500000000" ++ "\n") := by
  have hsec : secondsValue 300000000 1500000000 = FVal.finite (1 / 2) := by
    unfold secondsValue
    rw [fdiv_finite _ _ (by unfold PROFILER_MEASURE_SECONDS; norm_num)]
    rw [fdiv_finite _ _ (by unfold PROFILER_MEASURE_SECONDS; norm_num)]
    congr 1
    unfold PROFILER_MEASURE_SECONDS
    norm_num
  have hrow : rowText st4 (0, 0)
      = padRight "X" 40 ++ "0.500000" ++ " : " ++ "1500000000" ++ "\n" := by
    show padRight (indentName 0 ((st4.profiler_nodes 0).name)) 40
        ++ (secondsValue st4.profiler_cycles_measure
              ((st4.profiler_nodes 0).total_cycles)).formatF
        ++ " : " ++ natDecRepr ((st4.profiler_nodes 0).total_cycles) ++ "\n" = _
    rw [show st4.profiler_cycles_measure = 300000000 from rfl,
        show (st4.profiler_nodes 0).total_cycles = 1500000000 from rfl,
        show (st4.profiler_nodes 0).name = "X" from rfl]
    rw [hsec]
    show padRight (indentName 0 "X") 40 ++ formatFixed6 (1 / 2)
        ++ " : " ++ natDecRepr 1500000000 ++ "\n" = _
    rw [formatFixed6_half]
    decide
  refine ⟨by decide, ?_, hsec, ?_, ?_⟩
  · unfold calibrationFactor PROFILER_MEASURE_SECONDS
    norm_num
  · rw [hsec]
    show formatFixed6 (1 / 2) = _
    rw [formatFixed6_half]
  · unfold profiler_get_results
    rw [st4_rows]
    show headerLine1 ++ headerLine2 ++ String.join [rowText st4 (0, 0)] = _
    rw [hrow]
    decide

/-- C5: after `Start("A"); Start("B"); Stop("B"); Stop("A")` from the reset
state, region 1 ("B") has region 0 ("A") as parent, and the rendered rows are
"A" at indent level 0 followed by "B" at indent level 1, whose name column is
prefixed by four spaces. -/
theorem c5_nested_scenario :
    (stAB.profiler_nodes 1).parent_id = 0
    ∧ (stAB.profiler_nodes 0).name = "A"
    ∧ (stAB.profiler_nodes 1).name = "B"
    ∧ profiler_get_results_sorted stAB.profiler_nodes (-1) 0 = [(0, 0), (1, 1)]
    ∧ (profiler_get_results_sorted stAB.profiler_nodes (-1) 0).map
        (fun p => indentName p.2 ((stAB.profiler_nodes p.1).name)) = ["A", "    B"] := by
  refine ⟨by decide, by decide, by decide, stAB_rows, ?_⟩
  rw [stAB_rows]
  decide

/-- C6: after `_profiler_reset`, every registry slot is the empty initial
state — empty name, zero `total_cycles`, parent -1 — and the rendered report
is exactly the two header lines with no data rows. -/
theorem c6_reset_clears_and_empty_report (s : ProfilerState) :
    (∀ k, k < PROFILER_NODES_MAX → (profilerResetStep s).profiler_nodes k = resetNode)
    ∧ profiler_get_results (profilerResetStep s) = headerLine1 ++ headerLine2 := by
  constructor
  · intro k hk
    unfold profilerResetStep
    simp [hk]
  · unfold profiler_get_results profiler_get_results_sorted
    rw [renderTree_notfound_all _ _ _ _ (reset_scan s (-1) UINT64_MAX)]
    simp only [List.map_nil]
    decide

/-- C6 witness: resetting the zero-initialised state clears slot 0 and the
report is only the two header lines. -/
theorem c6_reset_clears_and_empty_report_witness :
    (profilerResetStep zeroState).profiler_nodes 0 = resetNode
    ∧ profiler_get_results (profilerResetStep zeroState) = headerLine1 ++ headerLine2 :=
  ⟨(c6_reset_clears_and_empty_report zeroState).1 0 (by decide),
   (c6_reset_clears_and_empty_report zeroState).2⟩

/-- The `__COUNTER__`-assigned call-site ids of a program with `s` distinct
instrumentation call sites: 0, 1, ..., s-1 (src/profiler.h line 230). -/
def counterIds (s : Nat) : List Nat := List.range s

/-- The registry index `PROFILER_START`/`PROFILER_STOP` access for a call
site: `profiler_nodes[__profiler_id_NAME]`, the raw site id with no bounds
check (src/profiler.h lines 231-237). -/
def startWriteIndex (siteId : Nat) : Nat := siteId

/-- C7: with at most `PROFILER_NODES_MAX` distinct call sites every index
used by Start/Stop lies inside the registry; with more call sites than
capacity, some registration accesses an index at or beyond
`PROFILER_NODES_MAX` — outside the registry's slots, with no failure path.
A Start writes exactly the slot at its `startWriteIndex`, leaving all other
indices unchanged. -/
theorem c7_capacity_bounds (S : Nat) :
    (S ≤ PROFILER_NODES_MAX → ∀ id ∈ counterIds S,
      startWriteIndex id < PROFILER_NODES_MAX)
    ∧ (PROFILER_NODES_MAX < S → ∃ id ∈ counterIds S,
        PROFILER_NODES_MAX ≤ startWriteIndex id)
    ∧ (∀ (s : ProfilerState) (id : Nat) (name : String) (k : Nat),
        k ≠ startWriteIndex id →
        (profilerStartStep s id name).profiler_nodes k = s.profiler_nodes k) := by
  refine ⟨?_, ?_, ?_⟩
  · intro hS id hid
    have hidS : id < S := by simpa [counterIds, List.mem_range] using hid
    unfold startWriteIndex
    omega
  · intro hS
    refine ⟨PROFILER_NODES_MAX, ?_, ?_⟩
    · simp only [counterIds, List.mem_range]
      omega
    · unfold startWriteIndex
      omega
  · intro s id name k hk
    unfold startWriteIndex at hk
    unfold profilerStartStep
    simp [hk]

/-- C7 witness: with exactly 256 sites all indices are in bounds; with 257
sites the site with id 256 accesses index 256, outside the registry. -/
theorem c7_capacity_bounds_witness :
    (∀ id ∈ counterIds 256, startWriteIndex id < PROFILER_NODES_MAX)
    ∧ (∃ id ∈ counterIds 257, PROFILER_NODES_MAX ≤ startWriteIndex id) :=
  ⟨(c7_capacity_bounds 256).1 (by decide),
   (c7_capacity_bounds 257).2.1 (by decide)⟩

/-- A 257-character region name: one character over the 256-byte name buffer. -/
def longName : String := ⟨List.replicate 257 'a'⟩

/-- A 256-character region name: exactly the name buffer size. -/
def maxName : String := ⟨List.replicate 256 'a'⟩

/-- C8 (code bug): `PROFILER_START` copies the name with
`_profiler_strncpy(dst, src, strlen(src)+1)` — the size is the full name
length plus one, not `PROFILER_NAME_MAXLEN` — so nothing is ever truncated
and the copy writes `strlen+1` bytes regardless of the 256-byte buffer: a
257-character name is stored whole with 258 bytes written, and even a
256-character name writes 257 bytes, one past the buffer. -/
theorem c8_name_write_unbounded :
    (startNameWrite longName).bytesWritten = longName.length + 1
    ∧ (startNameWrite longName).bytesWritten = 258
    ∧ PROFILER_NAME_MAXLEN < (startNameWrite longName).bytesWritten
    ∧ (startNameWrite longName).stored = longName
    ∧ (startNameWrite longName).stored.length = 257
    ∧ (startNameWrite maxName).bytesWritten = 257
    ∧ PROFILER_NAME_MAXLEN < (startNameWrite maxName).bytesWritten
    ∧ (startNameWrite maxName).stored = maxName := by
  decide

/-- C9: when report rendering runs with `profiler_cycles_measure` still at
its initial zero (initialization never ran), the denominator
`measure / PROFILER_MEASURE_SECONDS` is zero and every rendered row's seconds
value is the float division-by-zero result `+inf`, rendered `inf`; the rest
of each row — indented name, column padding, raw cycle count — and the header
lines are produced unchanged. -/
theorem c9_zero_measure_report (st : ProfilerState)
    (hm : st.profiler_cycles_measure = 0) :
    (∀ p ∈ profiler_get_results_sorted st.profiler_nodes (-1) 0,
      secondsValue st.profiler_cycles_measure ((st.profiler_nodes p.1).total_cycles)
          = FVal.inf
      ∧ rowText st p
          = padRight (indentName p.2 ((st.profiler_nodes p.1).name)) 40 ++ "inf"
              ++ " : " ++ natDecRepr ((st.profiler_nodes p.1).total_cycles) ++ "\n")
    ∧ profiler_get_results st
        = headerLine1 ++ headerLine2
            ++ String.join ((profiler_get_results_sorted st.profiler_nodes (-1) 0).map
                (rowText st)) := by
  constructor
  · intro p hp
    have hpos := (renderTree_mem st.profiler_nodes (PROFILER_NODES_MAX + 1) (-1) 0 p hp).2
    have hsec : secondsValue st.profiler_cycles_measure
        ((st.profiler_nodes p.1).total_cycles) = FVal.inf := by
      rw [hm]
      exact secondsValue_zero_measure _ (by omega)
    refine ⟨hsec, ?_⟩
    unfold rowText
    rw [hsec]
    rfl
  · rfl

/-- C9 witness: the uncalibrated state `st9` has measure 0, and its one
rendered row gets seconds `+inf`. -/
theorem c9_zero_measure_report_witness :
    st9.profiler_cycles_measure = 0
    ∧ ((∀ p ∈ profiler_get_results_sorted st9.profiler_nodes (-1) 0,
          secondsValue st9.profiler_cycles_measure
              ((st9.profiler_nodes p.1).total_cycles) = FVal.inf
          ∧ rowText st9 p
              = padRight (indentName p.2 ((st9.profiler_nodes p.1).name)) 40 ++ "inf"
                  ++ " : " ++ natDecRepr ((st9.profiler_nodes p.1).total_cycles) ++ "\n")
        ∧ profiler_get_results st9
            = headerLine1 ++ headerLine2
                ++ String.join ((profiler_get_results_sorted st9.profiler_nodes (-1) 0).map
                    (rowText st9)))
    ∧ secondsValue st9.profiler_cycles_measure ((st9.profiler_nodes 0).total_cycles)
        = FVal.inf :=
  ⟨rfl, c9_zero_measure_report st9 rfl,
   ((c9_zero_measure_report st9 rfl).1 (0, 0) (by rw [st9_rows]; decide)).1⟩

/-- C10: `_profiler_reset` touches only the registry slots: the calibration
value `profiler_cycles_measure` and the nesting cursor
`profiler_current_parent` are unchanged — so resetting after calibration
preserves the cycles-to-seconds conversion, and resetting while a region is
open (cursor = that region's id) leaves the cursor pointing at the
now-cleared slot. -/
theorem c10_reset_frame (s : ProfilerState) (id : Nat) (name : String) :
    (profilerResetStep s).profiler_current_parent = s.profiler_current_parent
    ∧ (profilerResetStep s).profiler_cycles_measure = s.profiler_cycles_measure
    ∧ (∀ k, k < PROFILER_NODES_MAX → (profilerResetStep s).profiler_nodes k = resetNode)
    ∧ (profilerResetStep (profilerStartStep s id name)).profiler_current_parent
        = (id : Int)
    ∧ (id < PROFILER_NODES_MAX →
        (profilerResetStep (profilerStartStep s id name)).profiler_nodes id = resetNode) := by
  refine ⟨rfl, rfl, ?_, rfl, ?_⟩
  · intro k hk
    unfold profilerResetStep
    simp [hk]
  · intro hid
    unfold profilerResetStep profilerStartStep
    simp [hid]

/-- C10 witness: resetting after `Start` at site 0 keeps the cursor at 0 while
slot 0 is cleared, and calibration and cursor are preserved on the zero state. -/
theorem c10_reset_frame_witness :
    (profilerResetStep zeroState).profiler_current_parent
        = zeroState.profiler_current_parent
    ∧ (profilerResetStep zeroState).profiler_cycles_measure
        = zeroState.profiler_cycles_measure
    ∧ (profilerResetStep zeroState).profiler_nodes 0 = resetNode
    ∧ (profilerResetStep (profilerStartStep zeroState 0 "A")).profiler_current_parent
        = ((0 : Nat) : Int)
    ∧ (profilerResetStep (profilerStartStep zeroState 0 "A")).profiler_nodes 0
        = resetNode :=
  ⟨(c10_reset_frame zeroState 0 "A").1,
   (c10_reset_frame zeroState 0 "A").2.1,
   (c10_reset_frame zeroState 0 "A").2.2.1 0 (by decide),
   (c10_reset_frame zeroState 0 "A").2.2.2.1,
   (c10_reset_frame zeroState 0 "A").2.2.2.2 (by decide)⟩

end SmallProfiler
